import Mathlib

/-!
Shallow embedding of the planning-poker session server in src/main.py.

The server keeps a global in-memory registry `rooms : Dict[str, room]`,
where a room is `{"users": Dict[name, {"ws", "vote"}], "lock",
"current_title", "history"}`.  Python dicts are modelled as
insertion-ordered association lists with unique keys (`setKey` updates an
existing key in place and appends a fresh one, exactly like dict
assignment; `delKey` removes the entry, like `del`).  JSON values are an
inductive type with integer numerals (no claim touches fractional
numbers); Python `None` is `JsonVal.null`, and `msg.get(k)` on a dict is
`objGet` (returning null when the key is absent).  Python truthiness of a
JSON value is `JsonVal.truthy`.

The per-connection coroutine of `websocket_endpoint` is modelled by an
operation step relation: `Op.join` is the connection setup (lines 84-98),
`Op.clientMsg` is one iteration of the receive loop (lines 101-142, with
`Inbound.badJson` standing for a payload that raises JSONDecodeError), and
`Op.disconnect` is the WebSocketDisconnect handler (lines 144-151).  The
random `secrets.token_hex(2)` suffix is an explicit parameter of the join
operation.  Points where the Python code would raise an uncaught exception
(AttributeError from `msg.get` on a non-dict, KeyError from
`rooms[room]` or `users[user]` on a missing key) are marked by
`crashed = true` in the step result; a crashed coroutine dies, so its
session disappears, but it never mutates the registry.  Since the event
loop is cooperative and every mutation holds the room lock, each operation
is atomic here.
-/

namespace Pesanding

/-- Scalar JSON values, as produced by json.loads; numbers restricted to
integers.  This covers every field value the claims mention; a compound
(array/object) vote value would be unhashable as a Python dict key and
is outside the modelled universe. -/
inductive JsonVal : Type where
  | null : JsonVal
  | bool : Bool → JsonVal
  | num : Int → JsonVal
  | str : String → JsonVal
deriving DecidableEq, Repr

/-- Python truthiness of a scalar JSON value (used by the `or` in line 129). -/
def JsonVal.truthy : JsonVal → Bool
  | .null => false
  | .bool b => b
  | .num n => n != 0
  | .str s => !s.isEmpty

/-- One inbound frame, as the receive loop classifies it: a payload that
json.loads rejects, a parseable payload that is not a JSON object (a
number, string, array, ...: `msg.get` raises AttributeError on it), or a
JSON object with its fields. -/
inductive Inbound : Type where
  | badJson : Inbound
  | nonObject : Inbound
  | object : List (String × JsonVal) → Inbound
deriving DecidableEq, Repr

/-- Dict lookup: first matching key (keys are unique in every state we build). -/
def getOpt {α β : Type} [DecidableEq α] : List (α × β) → α → Option β
  | [], _ => none
  | (k, v) :: rest, key => if k = key then some v else getOpt rest key

/-- Dict assignment `d[key] = val`: update in place, else append. -/
def setKey {α β : Type} [DecidableEq α] : List (α × β) → α → β → List (α × β)
  | [], key, val => [(key, val)]
  | (k, v) :: rest, key, val =>
      if k = key then (k, val) :: rest else (k, v) :: setKey rest key val

/-- Dict deletion `del d[key]` (no-op when the key is absent, matching the
guarded delete in line 146). -/
def delKey {α β : Type} [DecidableEq α] : List (α × β) → α → List (α × β)
  | [], _ => []
  | (k, v) :: rest, key => if k = key then rest else (k, v) :: delKey rest key

/-- One entry of a room's users dict: `{"ws": websocket, "vote": ...}`.
The websocket handle is abstracted to a connection identifier. -/
structure UserInfo where
  ws : Nat
  vote : JsonVal
deriving DecidableEq, Repr

/-- One history entry appended by reset (lines 128-131). -/
structure HistoryEntry where
  title : JsonVal
  results : List (JsonVal × Nat)
deriving DecidableEq, Repr

/-- A room: the dict built at lines 86-91 (the asyncio.Lock is not state). -/
structure Room where
  users : List (String × UserInfo)
  current_title : JsonVal
  history : List HistoryEntry
deriving DecidableEq, Repr

/-- The snapshot dict returned by room_state. -/
structure RoomSnapshot where
  users : List (String × JsonVal)
  available : List Int
  counts : List (JsonVal × Nat)
  title : JsonVal
  history : List HistoryEntry
deriving DecidableEq, Repr

/-- FIB = [1, 2, 3, 5, 8, 13, 21, 34] (line 24). -/
def FIB : List Int := [1, 2, 3, 5, 8, 13, 21, 34]

/-- One iteration of the tally loop at lines 38-43: a vote of None counts
as pending, any other value increments its entry of counts. -/
def tallyStep (acc : List (JsonVal × Nat) × Nat) (v : JsonVal) :
    List (JsonVal × Nat) × Nat :=
  if v = .null then (acc.1, acc.2 + 1)
  else (setKey acc.1 v ((getOpt acc.1 v).getD 0 + 1), acc.2)

/-- The whole tally loop over a room's users: (counts, pending). -/
def voteTally (users : List (String × UserInfo)) : List (JsonVal × Nat) × Nat :=
  users.foldl (fun acc p => tallyStep acc p.2.vote) ([], 0)

/-- room_state (lines 27-55).  For an absent room the literal empty
snapshot of line 31; otherwise the projection with
`counts["pending"] = pending` written last (line 46). -/
def room_state (rooms : List (String × Room)) (room_id : String) : RoomSnapshot :=
  match getOpt rooms room_id with
  | none => ⟨[], FIB, [], .null, []⟩
  | some r =>
      let t := voteTally r.users
      ⟨r.users.map (fun p => (p.1, p.2.vote)), FIB,
       setKey t.1 (.str "pending") t.2, r.current_title, r.history⟩

/-- Sum of all occurrence counts stored in a counts mapping. -/
def sumCounts (m : List (JsonVal × Nat)) : Nat := (m.map Prod.snd).sum

/-- Global server state: the rooms registry plus, for each live connection
coroutine, its local `room` and `user` variables. -/
structure ServerState where
  rooms : List (String × Room)
  sessions : List (Nat × (String × String))
deriving DecidableEq, Repr

/-- Outbound message payloads (the JSON objects built at lines 98, 115,
121, 139, 142, 151, keyed by their "type" field). -/
inductive OutMsg where
  | joined (user : String) (snap : RoomSnapshot)
  | left (user : String) (snap : RoomSnapshot)
  | title_set (title : JsonVal) (snap : RoomSnapshot)
  | vote (user : String) (value : JsonVal) (snap : RoomSnapshot)
  | reset (snap : RoomSnapshot)
  | stateReply (snap : RoomSnapshot)
deriving DecidableEq, Repr

/-- Where a payload is sent: the broadcast loop over a room's users
(lines 57-67), or a direct send_text to one connection (line 142). -/
inductive Delivery where
  | broadcast (roomId : String) (msg : OutMsg)
  | unicast (connId : Nat) (msg : OutMsg)
deriving DecidableEq, Repr

/-- The operations a trace is made of. -/
inductive Op where
  | join (roomId reqName suffix : String) (connId : Nat)
  | clientMsg (connId : Nat) (raw : Inbound)
  | disconnect (connId : Nat)
deriving DecidableEq, Repr

/-- Result of one operation: the new state, the sends it performed, and
whether the coroutine died on an uncaught exception. -/
structure StepResult where
  state : ServerState
  outputs : List Delivery
  crashed : Bool
deriving DecidableEq, Repr

/-- The fresh room dict of lines 86-91. -/
def emptyRoom : Room := ⟨[], .null, []⟩

/-- `msg.get(key)` on a JSON object: null when absent (Python None). -/
def objGet (fields : List (String × JsonVal)) (key : String) : JsonVal :=
  (getOpt fields key).getD .null

/-- The four type tags the receive loop dispatches on. -/
def isRecognized (t : JsonVal) : Bool :=
  t == .str "set_title" || t == .str "vote" || t == .str "reset" ||
    t == .str "request_state"

/-- Connection setup, lines 84-98: create the room if absent, disambiguate
a colliding name by appending the random suffix, insert the user, and
broadcast the joined message with the fresh snapshot. -/
def doJoin (st : ServerState) (roomId reqName suffix : String) (connId : Nat) :
    StepResult :=
  let rooms1 := if (getOpt st.rooms roomId).isSome then st.rooms
                else setKey st.rooms roomId emptyRoom
  let r := (getOpt rooms1 roomId).getD emptyRoom
  let eff := if (getOpt r.users reqName).isSome then reqName ++ "_" ++ suffix
             else reqName
  let rooms2 := setKey rooms1 roomId { r with users := setKey r.users eff ⟨connId, .null⟩ }
  ⟨⟨rooms2, setKey st.sessions connId (roomId, eff)⟩,
   [.broadcast roomId (.joined eff (room_state rooms2 roomId))], false⟩

/-- One iteration of the receive loop, lines 102-142, for the coroutine
whose local variables are `room` and `user`.  A payload json.loads
rejects makes the loop just continue; a non-object JSON value makes
`msg.get` raise AttributeError; `rooms[room]` and `users[user]`
raise KeyError when the key is missing. -/
def handleClientMsg (st : ServerState) (connId : Nat) (room user : String)
    (raw : Inbound) : StepResult :=
  match raw with
  | .badJson => ⟨st, [], false⟩
  | .nonObject => ⟨st, [], true⟩
  | .object fields =>
      let typ := objGet fields "type"
      if typ = .str "set_title" then
        match getOpt st.rooms room with
        | none => ⟨st, [], true⟩
        | some r =>
            let title := objGet fields "title"
            let rooms2 := setKey st.rooms room { r with current_title := title }
            ⟨⟨rooms2, st.sessions⟩,
             [.broadcast room (.title_set title (room_state rooms2 room))], false⟩
      else if typ = .str "vote" then
        match getOpt st.rooms room with
        | none => ⟨st, [], true⟩
        | some r =>
            match getOpt r.users user with
            | none => ⟨st, [], true⟩
            | some info =>
                let value := objGet fields "value"
                let rooms2 := setKey st.rooms room
                  { r with users := setKey r.users user { info with vote := value } }
                ⟨⟨rooms2, st.sessions⟩,
                 [.broadcast room (.vote user value (room_state rooms2 room))], false⟩
      else if typ = .str "reset" then
        match getOpt st.rooms room with
        | none => ⟨st, [], true⟩
        | some r =>
            let entry : HistoryEntry :=
              ⟨if r.current_title.truthy then r.current_title
               else .str "Sin título",
               (room_state st.rooms room).counts⟩
            let rooms2 := setKey st.rooms room
              ⟨r.users.map (fun p => (p.1, { p.2 with vote := .null })), .null,
               r.history ++ [entry]⟩
            ⟨⟨rooms2, st.sessions⟩,
             [.broadcast room (.reset (room_state rooms2 room))], false⟩
      else if typ = .str "request_state" then
        ⟨st, [.unicast connId (.stateReply (room_state st.rooms room))], false⟩
      else ⟨st, [], false⟩

/-- One operation of the whole server.  A crashed coroutine's session
entry disappears (the task is dead) but the registry is untouched: every
raise point in the source precedes any mutation. -/
def step (st : ServerState) (op : Op) : StepResult :=
  match op with
  | .join roomId reqName suffix connId => doJoin st roomId reqName suffix connId
  | .clientMsg connId raw =>
      match getOpt st.sessions connId with
      | none => ⟨st, [], false⟩
      | some (room, user) =>
          let res := handleClientMsg st connId room user raw
          if res.crashed then
            ⟨⟨res.state.rooms, delKey st.sessions connId⟩, res.outputs, true⟩
          else res
  | .disconnect connId =>
      match getOpt st.sessions connId with
      | none => ⟨st, [], false⟩
      | some (room, user) =>
          match getOpt st.rooms room with
          | none => ⟨⟨st.rooms, delKey st.sessions connId⟩, [], true⟩
          | some r =>
              let users2 := delKey r.users user
              if users2.isEmpty then
                ⟨⟨delKey st.rooms room, delKey st.sessions connId⟩, [], false⟩
              else
                let rooms2 := setKey st.rooms room { r with users := users2 }
                ⟨⟨rooms2, delKey st.sessions connId⟩,
                 [.broadcast room (.left user (room_state rooms2 room))], false⟩

/-- The server starts with no rooms and no connections. -/
def initState : ServerState := ⟨[], []⟩

/-- Run a trace of operations from the initial state. -/
def run (ops : List Op) : ServerState :=
  ops.foldl (fun st op => (step st op).state) initState

/-! ### Association-list lemmas -/

theorem getOpt_setKey_self {α β : Type} [DecidableEq α] (m : List (α × β)) (k : α) (v : β) :
    getOpt (setKey m k v) k = some v := by
  induction m with
  | nil => simp [setKey, getOpt]
  | cons a rest ih =>
      by_cases h : a.1 = k
      · simp [setKey, getOpt, h]
      · simp [setKey, getOpt, h, ih]

theorem getOpt_setKey_ne {α β : Type} [DecidableEq α] (m : List (α × β)) (k k' : α) (v : β)
    (h : k' ≠ k) : getOpt (setKey m k v) k' = getOpt m k' := by
  have hk : k ≠ k' := Ne.symm h
  induction m with
  | nil => simp [setKey, getOpt, hk]
  | cons a rest ih =>
      by_cases ha : a.1 = k
      · simp [setKey, getOpt, ha, hk]
      · simp [setKey, getOpt, ha, ih]

theorem getOpt_delKey_ne {α β : Type} [DecidableEq α] (m : List (α × β)) (k k' : α)
    (h : k' ≠ k) : getOpt (delKey m k) k' = getOpt m k' := by
  have hk : k ≠ k' := Ne.symm h
  induction m with
  | nil => simp [delKey]
  | cons a rest ih =>
      by_cases ha : a.1 = k
      · simp [delKey, getOpt, ha, hk]
      · simp [delKey, getOpt, ha, ih]

theorem getOpt_eq_none_iff {α β : Type} [DecidableEq α] (m : List (α × β)) (k : α) :
    getOpt m k = none ↔ k ∉ m.map Prod.fst := by
  induction m with
  | nil => simp [getOpt]
  | cons a rest ih =>
      by_cases h : a.1 = k
      · simp [getOpt, h]
      · simp [getOpt, h, ih, Ne.symm h]

theorem setKey_map_fst_of_mem {α β : Type} [DecidableEq α] (m : List (α × β)) (k : α) (v : β)
    (h : k ∈ m.map Prod.fst) : (setKey m k v).map Prod.fst = m.map Prod.fst := by
  induction m with
  | nil => simp at h
  | cons a rest ih =>
      by_cases ha : a.1 = k
      · simp [setKey, ha]
      · rw [List.map_cons, List.mem_cons] at h
        rcases h with h | h
        · exact absurd h.symm ha
        · simp [setKey, ha, ih h]

theorem setKey_map_fst_of_not_mem {α β : Type} [DecidableEq α] (m : List (α × β)) (k : α) (v : β)
    (h : k ∉ m.map Prod.fst) : (setKey m k v).map Prod.fst = m.map Prod.fst ++ [k] := by
  induction m with
  | nil => simp [setKey]
  | cons a rest ih =>
      rw [List.map_cons, List.mem_cons] at h
      push_neg at h
      have h1 : a.1 ≠ k := fun hh => h.1 hh.symm
      simp [setKey, h1, ih h.2]

theorem nodup_setKey {α β : Type} [DecidableEq α] (m : List (α × β)) (k : α) (v : β)
    (h : (m.map Prod.fst).Nodup) : ((setKey m k v).map Prod.fst).Nodup := by
  by_cases hk : k ∈ m.map Prod.fst
  · rw [setKey_map_fst_of_mem m k v hk]; exact h
  · rw [setKey_map_fst_of_not_mem m k v hk]
    refine List.Nodup.append h (List.nodup_singleton k) ?_
    intro x hx hx2
    rw [List.mem_singleton] at hx2
    subst hx2
    exact hk hx

theorem delKey_map_fst_sublist {α β : Type} [DecidableEq α] (m : List (α × β)) (k : α) :
    ((delKey m k).map Prod.fst).Sublist (m.map Prod.fst) := by
  induction m with
  | nil => simp [delKey]
  | cons a rest ih =>
      by_cases ha : a.1 = k
      · simp [delKey, ha]
      · simpa [delKey, ha] using List.Sublist.cons₂ a.1 ih

theorem nodup_delKey {α β : Type} [DecidableEq α] (m : List (α × β)) (k : α)
    (h : (m.map Prod.fst).Nodup) : ((delKey m k).map Prod.fst).Nodup :=
  (delKey_map_fst_sublist m k).nodup h

theorem getOpt_delKey_self {α β : Type} [DecidableEq α] (m : List (α × β)) (k : α)
    (h : (m.map Prod.fst).Nodup) : getOpt (delKey m k) k = none := by
  induction m with
  | nil => simp [delKey, getOpt]
  | cons a rest ih =>
      rw [List.map_cons, List.nodup_cons] at h
      by_cases ha : a.1 = k
      · subst ha
        simp [delKey]
        rw [getOpt_eq_none_iff]
        exact h.1
      · simp [delKey, getOpt, ha]
        exact ih h.2

theorem setKey_ne_nil {α β : Type} [DecidableEq α] (m : List (α × β)) (k : α) (v : β) :
    setKey m k v ≠ [] := by
  cases m with
  | nil => simp [setKey]
  | cons a rest =>
      by_cases h : a.1 = k <;> simp [setKey, h]

theorem map_fst_rename {γ : Type} (l : List (String × UserInfo)) (g : String × UserInfo → γ) :
    (l.map (fun p => (p.1, g p))).map Prod.fst = l.map Prod.fst := by
  simp [List.map_map, Function.comp]

theorem setKey_of_not_mem {α β : Type} [DecidableEq α] (m : List (α × β)) (k : α) (v : β)
    (h : getOpt m k = none) : setKey m k v = m ++ [(k, v)] := by
  induction m with
  | nil => simp [setKey]
  | cons a rest ih =>
      rw [getOpt] at h
      by_cases ha : a.1 = k
      · rw [if_pos ha] at h; exact absurd h (by simp)
      · rw [if_neg ha] at h
        simp [setKey, ha, ih h]

theorem setKey_setKey {α β : Type} [DecidableEq α] (m : List (α × β)) (k : α) (v w : β) :
    setKey (setKey m k v) k w = setKey m k w := by
  induction m with
  | nil => simp [setKey]
  | cons a rest ih =>
      by_cases ha : a.1 = k
      · simp [setKey, ha]
      · simp [setKey, ha, ih]

/-! ### Tally lemmas -/

theorem sumCounts_setKey_fresh (m : List (JsonVal × Nat)) (k : JsonVal) (v : Nat)
    (h : getOpt m k = none) : sumCounts (setKey m k v) = sumCounts m + v := by
  rw [setKey_of_not_mem m k v h]
  simp [sumCounts]

theorem sumCounts_setKey_incr (m : List (JsonVal × Nat)) (k : JsonVal) :
    sumCounts (setKey m k ((getOpt m k).getD 0 + 1)) = sumCounts m + 1 := by
  induction m with
  | nil => simp [setKey, getOpt, sumCounts]
  | cons a rest ih =>
      by_cases ha : a.1 = k
      · simp [setKey, getOpt, ha, sumCounts]
        omega
      · simp only [setKey, getOpt, if_neg ha]
        simp only [sumCounts, List.map_cons, List.sum_cons] at ih ⊢
        omega

theorem tallyStep_total (acc : List (JsonVal × Nat) × Nat) (v : JsonVal) :
    sumCounts (tallyStep acc v).1 + (tallyStep acc v).2 = sumCounts acc.1 + acc.2 + 1 := by
  by_cases h : v = JsonVal.null
  · simp [tallyStep, h]; omega
  · simp [tallyStep, h, sumCounts_setKey_incr]
    omega

theorem tallyFold_total (users : List (String × UserInfo)) (acc : List (JsonVal × Nat) × Nat) :
    sumCounts (users.foldl (fun a p => tallyStep a p.2.vote) acc).1
      + (users.foldl (fun a p => tallyStep a p.2.vote) acc).2
      = sumCounts acc.1 + acc.2 + users.length := by
  induction users generalizing acc with
  | nil => simp
  | cons u rest ih =>
      rw [List.foldl_cons, ih]
      have := tallyStep_total acc u.2.vote
      simp only [List.length_cons]
      omega

theorem tallyFold_fresh (users : List (String × UserInfo)) (acc : List (JsonVal × Nat) × Nat)
    (k : JsonVal) (h1 : getOpt acc.1 k = none) (h2 : ∀ p ∈ users, p.2.vote ≠ k) :
    getOpt (users.foldl (fun a p => tallyStep a p.2.vote) acc).1 k = none := by
  induction users generalizing acc with
  | nil => simpa using h1
  | cons u rest ih =>
      rw [List.foldl_cons]
      refine ih _ ?_ (fun p hp => h2 p (List.mem_cons_of_mem u hp))
      by_cases hv : u.2.vote = JsonVal.null
      · simpa [tallyStep, hv] using h1
      · have hne : k ≠ u.2.vote := fun hh => (h2 u (List.mem_cons_self u rest)) hh.symm
        simp only [tallyStep, if_neg hv]
        rw [getOpt_setKey_ne _ _ _ _ hne]
        exact h1

theorem tallyFold_pending (users : List (String × UserInfo)) (acc : List (JsonVal × Nat) × Nat) :
    (users.foldl (fun a p => tallyStep a p.2.vote) acc).2
      = acc.2 + users.countP (fun p => p.2.vote == JsonVal.null) := by
  induction users generalizing acc with
  | nil => simp
  | cons u rest ih =>
      rw [List.foldl_cons, ih, List.countP_cons]
      by_cases hv : u.2.vote = JsonVal.null
      · simp [tallyStep, hv]
        omega
      · simp [tallyStep, hv]

/-! ### Invariants of reachable server states -/

/-- Structural invariants every reachable registry satisfies: distinct
room identifiers, distinct display names inside each room, and no
registered room without users. -/
structure Inv (st : ServerState) : Prop where
  reg : (st.rooms.map Prod.fst).Nodup
  names : ∀ id r, getOpt st.rooms id = some r → (r.users.map Prod.fst).Nodup
  users_ne : ∀ id r, getOpt st.rooms id = some r → r.users ≠ []

theorem Inv.update {st : ServerState} (h : Inv st) (id : String) (r2 : Room)
    (hn : (r2.users.map Prod.fst).Nodup) (hne : r2.users ≠ [])
    (sess : List (Nat × (String × String))) : Inv ⟨setKey st.rooms id r2, sess⟩ := by
  refine ⟨nodup_setKey _ _ _ h.reg, ?_, ?_⟩
  · intro id2 r hr
    by_cases he : id2 = id
    · subst he
      rw [getOpt_setKey_self] at hr
      injection hr with hh
      subst hh
      exact hn
    · rw [getOpt_setKey_ne _ _ _ _ he] at hr
      exact h.names id2 r hr
  · intro id2 r hr
    by_cases he : id2 = id
    · subst he
      rw [getOpt_setKey_self] at hr
      injection hr with hh
      subst hh
      exact hne
    · rw [getOpt_setKey_ne _ _ _ _ he] at hr
      exact h.users_ne id2 r hr

theorem Inv.delete {st : ServerState} (h : Inv st) (id : String)
    (sess : List (Nat × (String × String))) : Inv ⟨delKey st.rooms id, sess⟩ := by
  refine ⟨nodup_delKey _ _ h.reg, ?_, ?_⟩
  · intro id2 r hr
    by_cases he : id2 = id
    · subst he
      rw [getOpt_delKey_self _ _ h.reg] at hr
      cases hr
    · rw [getOpt_delKey_ne _ _ _ he] at hr
      exact h.names id2 r hr
  · intro id2 r hr
    by_cases he : id2 = id
    · subst he
      rw [getOpt_delKey_self _ _ h.reg] at hr
      cases hr
    · rw [getOpt_delKey_ne _ _ _ he] at hr
      exact h.users_ne id2 r hr

theorem Inv.keep {st : ServerState} (h : Inv st) (sess : List (Nat × (String × String))) :
    Inv ⟨st.rooms, sess⟩ := ⟨h.reg, h.names, h.users_ne⟩

theorem inv_handleClientMsg {st : ServerState} (h : Inv st) (connId : Nat)
    (room user : String) (raw : Inbound) :
    Inv (handleClientMsg st connId room user raw).state := by
  cases raw with
  | badJson => exact h
  | nonObject => exact h
  | object fields =>
      simp only [handleClientMsg]
      by_cases h1 : objGet fields "type" = JsonVal.str "set_title"
      · rw [if_pos h1]
        cases hr : getOpt st.rooms room with
        | none => exact h
        | some r =>
            exact h.update room { r with current_title := objGet fields "title" }
              (h.names room r hr) (h.users_ne room r hr) _
      · rw [if_neg h1]
        by_cases h2 : objGet fields "type" = JsonVal.str "vote"
        · rw [if_pos h2]
          cases hr : getOpt st.rooms room with
          | none => exact h
          | some r =>
              dsimp only
              cases hu : getOpt r.users user with
              | none => exact h
              | some info =>
                  exact h.update room
                    { r with users :=
                        setKey r.users user { info with vote := objGet fields "value" } }
                    (nodup_setKey _ _ _ (h.names room r hr)) (setKey_ne_nil _ _ _) _
        · rw [if_neg h2]
          by_cases h3 : objGet fields "type" = JsonVal.str "reset"
          · rw [if_pos h3]
            cases hr : getOpt st.rooms room with
            | none => exact h
            | some r =>
                refine h.update room _ ?_ ?_ _
                · rw [map_fst_rename]
                  exact h.names room r hr
                · intro hh
                  exact h.users_ne room r hr (List.map_eq_nil_iff.mp hh)
          · rw [if_neg h3]
            by_cases h4 : objGet fields "type" = JsonVal.str "request_state"
            · rw [if_pos h4]; exact h
            · rw [if_neg h4]; exact h

theorem inv_step {st : ServerState} (h : Inv st) (op : Op) : Inv (step st op).state := by
  cases op with
  | join roomId reqName suffix connId =>
      cases hc : getOpt st.rooms roomId with
      | some r0 =>
          simp only [step, doJoin, hc, Option.isSome_some, if_true, Option.getD_some]
          exact h.update roomId _ (nodup_setKey _ _ _ (h.names _ _ hc)) (setKey_ne_nil _ _ _) _
      | none =>
          simp only [step, doJoin, hc, Option.isSome_none, Bool.false_eq_true, if_false,
            getOpt_setKey_self, Option.getD_some, setKey_setKey]
          refine h.update roomId _ ?_ ?_ _
          · simp [emptyRoom, setKey]
          · simp [emptyRoom, setKey]
  | clientMsg connId raw =>
      simp only [step]
      cases hs : getOpt st.sessions connId with
      | none => exact h
      | some pu =>
          obtain ⟨room, user⟩ := pu
          have hh := inv_handleClientMsg h connId room user raw
          by_cases hcr : (handleClientMsg st connId room user raw).crashed = true
          · simp only [hcr, if_true]
            exact hh.keep _
          · simp only [hcr, if_false]
            exact hh
  | disconnect connId =>
      simp only [step]
      cases hs : getOpt st.sessions connId with
      | none => exact h
      | some pu =>
          obtain ⟨room, user⟩ := pu
          dsimp only
          cases hr : getOpt st.rooms room with
          | none => exact h.keep _
          | some r =>
              dsimp only
              by_cases he : (delKey r.users user).isEmpty = true
              · simp only [he, if_true]
                exact h.delete room _
              · simp only [he, if_false]
                refine h.update room { r with users := delKey r.users user }
                  (nodup_delKey _ _ (h.names room r hr)) ?_ _
                intro hh
                simp only [Room.users] at hh
                rw [hh] at he
                exact he rfl

theorem inv_foldl (ops : List Op) (st : ServerState) (h : Inv st) :
    Inv (ops.foldl (fun s op => (step s op).state) st) := by
  induction ops generalizing st with
  | nil => exact h
  | cons op rest ih => exact ih _ (inv_step h op)

theorem inv_run (ops : List Op) : Inv (run ops) := by
  refine inv_foldl ops initState ⟨by simp [initState], ?_, ?_⟩
  · intro id r hr
    simp [initState, getOpt] at hr
  · intro id r hr
    simp [initState, getOpt] at hr

/-! ### C1: the counts partition -/

/-- Trace for the C1 counterexample: one user joins room "r" and then
votes the string value "pending" (payload
`\x7b"type": "vote", "value": "pending"\x7d`). -/
def c1ops : List Op :=
  [.join "r" "a" "ab12" 0,
   .clientMsg 0 (.object [("type", .str "vote"), ("value", .str "pending")])]

/-- C1 (counterexample): after the trace c1ops the room has one user but
the snapshot's counts mapping is exactly \x7b"pending": 0\x7d, because the
reserved pending write overwrote the tally of the vote value "pending":
the sum of the per-vote-value counts plus the pending count is 0, not 1,
so the claimed invariant fails on this join/vote sequence. -/
theorem counts_partition_cex :
    (room_state (run c1ops).rooms "r").counts = [(JsonVal.str "pending", 0)] ∧
    (room_state (run c1ops).rooms "r").users.length = 1 ∧
    sumCounts (room_state (run c1ops).rooms "r").counts ≠
      (room_state (run c1ops).rooms "r").users.length := by
  decide

/-- C1 (amended): for every registered room in which no user's current
vote is the string "pending", the sum of all counts in the snapshot's
counts mapping (the per-vote-value tallies plus the reserved pending
entry) equals the number of users in the room.  The restriction is forced
by the counterexample: a vote equal to the string "pending" is
overwritten by the pending count and drops out of the sum. -/
theorem counts_partition_amended (rooms : List (String × Room)) (id : String) (r : Room)
    (h : getOpt rooms id = some r)
    (hp : ∀ p ∈ r.users, p.2.vote ≠ JsonVal.str "pending") :
    sumCounts (room_state rooms id).counts = r.users.length := by
  simp only [room_state, h, voteTally]
  rw [sumCounts_setKey_fresh _ _ _ (tallyFold_fresh r.users ([], 0) _ rfl hp)]
  have := tallyFold_total r.users ([], 0)
  simpa [sumCounts] using this

/-- Concrete two-user room for the C1 witness. -/
def c1wRoom : Room := ⟨[("a", ⟨0, .num 5⟩), ("b", ⟨1, .null⟩)], .null, []⟩

/-- C1 (witness): the amended theorem at a concrete two-user room. -/
theorem counts_partition_amended_w :
    sumCounts (room_state [("w", c1wRoom)] "w").counts = 2 :=
  counts_partition_amended [("w", c1wRoom)] "w" c1wRoom (by decide) (by decide)

/-! ### C2: reset archives the round -/

/-- Three users join room "r", the title is set to "Story 1", A votes 5,
B votes 8, C stays pending, then C sends reset. -/
def c2ops : List Op :=
  [.join "r" "A" "s1" 0, .join "r" "B" "s2" 1, .join "r" "C" "s3" 2,
   .clientMsg 0 (.object [("type", .str "set_title"), ("title", .str "Story 1")]),
   .clientMsg 0 (.object [("type", .str "vote"), ("value", .num 5)]),
   .clientMsg 1 (.object [("type", .str "vote"), ("value", .num 8)]),
   .clientMsg 2 (.object [("type", .str "reset")])]

/-- C2: the reset on the room with votes A:5, B:8, C:none and title
"Story 1" appends exactly one history entry with title "Story 1" and
results 5:1, 8:1, pending:1, sets every vote to none and clears the
title; the resulting snapshot shows all votes none and a null title. -/
theorem reset_round_snapshot :
    getOpt (run c2ops).rooms "r" =
      some ⟨[("A", ⟨0, .null⟩), ("B", ⟨1, .null⟩), ("C", ⟨2, .null⟩)], .null,
        [⟨.str "Story 1", [(.num 5, 1), (.num 8, 1), (.str "pending", 1)]⟩]⟩ ∧
    room_state (run c2ops).rooms "r" =
      ⟨[("A", .null), ("B", .null), ("C", .null)], FIB, [(.str "pending", 3)], .null,
        [⟨.str "Story 1", [(.num 5, 1), (.num 8, 1), (.str "pending", 1)]⟩]⟩ := by
  decide

/-! ### C3: effective-name uniqueness -/

/-- Trace for the C3 counterexample: "alice" joins, "alice_ab12" joins,
then a second "alice" joins and the random suffix drawn is "ab12" (a
possible output of token_hex(2)). -/
def c3ops : List Op :=
  [.join "r" "alice" "zz11" 0, .join "r" "alice_ab12" "zz11" 1,
   .join "r" "alice" "ab12" 2]

/-- C3 (counterexample): three joins into "r" and no departures, yet the
room ends with only two user entries, and the live connections 1 and 2
both carry the effective name "alice_ab12": the third join's suffixed
name collided with an existing user and silently overwrote that user's
entry, so effective names are not unique among connections. -/
theorem unique_names_cex :
    getOpt (run c3ops).sessions 1 = some ("r", "alice_ab12") ∧
    getOpt (run c3ops).sessions 2 = some ("r", "alice_ab12") ∧
    getOpt (run c3ops).rooms "r" =
      some ⟨[("alice", ⟨0, .null⟩), ("alice_ab12", ⟨2, .null⟩)], .null, []⟩ := by
  decide

/-- C3 (amended): in every reachable state the users mapping of every
room carries pairwise-distinct names, and a join is never rejected: the
joining connection always ends up registered in the room under its
effective name (requested name, suffixed on collision).  However, the
suffixed name is not guaranteed fresh: when it equals an existing user's
name, that entry is overwritten (see the counterexample). -/
theorem unique_names_amended :
    (∀ ops id r, getOpt (run ops).rooms id = some r → (r.users.map Prod.fst).Nodup) ∧
    (∀ st roomId reqName sfx connId, ∃ eff r2,
       getOpt (step st (.join roomId reqName sfx connId)).state.sessions connId
         = some (roomId, eff) ∧
       getOpt (step st (.join roomId reqName sfx connId)).state.rooms roomId = some r2 ∧
       getOpt r2.users eff = some ⟨connId, JsonVal.null⟩) := by
  constructor
  · intro ops id r hr
    exact (inv_run ops).names id r hr
  · intro st roomId reqName sfx connId
    simp only [step, doJoin]
    exact ⟨_, _, getOpt_setKey_self _ _ _, getOpt_setKey_self _ _ _,
      getOpt_setKey_self _ _ _⟩

/-- C3 (witness): the amended theorem at a one-join trace. -/
theorem unique_names_amended_w :
    (((⟨[("a", ⟨0, JsonVal.null⟩)], JsonVal.null, []⟩ : Room).users.map Prod.fst)).Nodup :=
  unique_names_amended.1 [.join "w3" "a" "ab12" 0] "w3"
    ⟨[("a", ⟨0, JsonVal.null⟩)], JsonVal.null, []⟩ (by decide)

/-! ### C4: malformed inbound messages -/

/-- C4 (counterexample): a live session receives a payload that is valid
JSON but not an object (for instance the payload "[1, 2]" or "42"):
`msg.get("type")` raises AttributeError, so the step crashes and the
session dies instead of being silently ignored. -/
theorem malformed_ignored_cex :
    (step (run [.join "r" "a" "ab12" 0]) (.clientMsg 0 .nonObject)).crashed = true ∧
    getOpt (step (run [.join "r" "a" "ab12" 0])
      (.clientMsg 0 .nonObject)).state.sessions 0 = none := by
  decide

/-- C4 (amended): an inbound payload that json.loads rejects, or that
parses to a JSON object whose type tag is not one of the four recognized
tags, is silently ignored: the server state is unchanged, nothing is sent,
the handler does not crash, and a subsequent valid vote message is still
applied.  (A payload parsing to a non-object JSON value, by contrast,
crashes the session loop: see the counterexample.) -/
theorem malformed_ignored_amended (st : ServerState) (connId : Nat) (id u : String)
    (raw : Inbound) (hs : getOpt st.sessions connId = some (id, u))
    (hraw : raw = .badJson ∨
      ∃ fields, raw = .object fields ∧ isRecognized (objGet fields "type") = false) :
    step st (.clientMsg connId raw) = ⟨st, [], false⟩ ∧
    ∀ v r info, getOpt st.rooms id = some r → getOpt r.users u = some info →
      (step st (.clientMsg connId (.object [("type", .str "vote"), ("value", v)]))).crashed
        = false ∧
      ∃ r2,
        getOpt (step st
            (.clientMsg connId (.object [("type", .str "vote"), ("value", v)]))).state.rooms
          id = some r2 ∧
        getOpt r2.users u = some ⟨info.ws, v⟩ := by
  constructor
  · rcases hraw with rfl | ⟨fields, rfl, hf⟩
    · simp [step, hs, handleClientMsg]
    · simp only [isRecognized, Bool.or_eq_false_iff, beq_eq_false_iff_ne, ne_eq] at hf
      obtain ⟨⟨⟨h1, h2⟩, h3⟩, h4⟩ := hf
      simp [step, hs, handleClientMsg, h1, h2, h3, h4]
  · intro v r info hr hu
    have hty : objGet [("type", JsonVal.str "vote"), ("value", v)] "type"
        = JsonVal.str "vote" := rfl
    have hval : objGet [("type", JsonVal.str "vote"), ("value", v)] "value" = v := rfl
    constructor
    · simp +decide [step, hs, handleClientMsg, hty, hval, hr, hu]
    · refine ⟨{ r with users := setKey r.users u { info with vote := v } }, ?_, ?_⟩
      · simp +decide [step, hs, handleClientMsg, hty, hval, hr, hu, getOpt_setKey_self]
      · simp [getOpt_setKey_self]

/-- Concrete one-room, one-session state for the C4 witness. -/
def c4wState : ServerState :=
  ⟨[("w4", ⟨[("a", ⟨0, JsonVal.null⟩)], JsonVal.null, []⟩)], [(0, ("w4", "a"))]⟩

/-- C4 (witness): the amended theorem at a concrete state with a bad-JSON
payload. -/
theorem malformed_ignored_amended_w :
    step c4wState (.clientMsg 0 .badJson) = ⟨c4wState, [], false⟩ :=
  (malformed_ignored_amended c4wState 0 "w4" "a" .badJson (by decide) (Or.inl rfl)).1

/-! ### C5: room lifecycle -/

/-- C5: (i) in every reachable state, a room exists in the registry only
while it has at least one user entry; (ii) when the last user of a room
disconnects, the room is removed from the registry; (iii) a subsequent
join under an identifier with no registry entry yields a snapshot with
empty history and null title. -/
theorem room_lifecycle :
    (∀ ops id r, getOpt (run ops).rooms id = some r → r.users ≠ []) ∧
    (∀ ops id connId u i r,
       getOpt (run ops).sessions connId = some (id, u) →
       getOpt (run ops).rooms id = some r → r.users = [(u, i)] →
       getOpt (step (run ops) (.disconnect connId)).state.rooms id = none) ∧
    (∀ st id reqName sfx connId, getOpt st.rooms id = none →
       (room_state (step st (.join id reqName sfx connId)).state.rooms id).history = [] ∧
       (room_state (step st (.join id reqName sfx connId)).state.rooms id).title
         = JsonVal.null) := by
  refine ⟨?_, ?_, ?_⟩
  · intro ops id r hr
    exact (inv_run ops).users_ne id r hr
  · intro ops id connId u i r hs hr hone
    simp only [step, hs, hr, hone]
    simp [delKey]
    exact getOpt_delKey_self _ _ (inv_run ops).reg
  · intro st id reqName sfx connId h
    simp only [step, doJoin, h, Option.isSome_none, Bool.false_eq_true, if_false,
      getOpt_setKey_self, Option.getD_some, setKey_setKey]
    simp [room_state, getOpt_setKey_self, emptyRoom]

/-- C5 (witness): the sole user of room "w5" disconnects and the room is
gone from the registry. -/
theorem room_lifecycle_w :
    getOpt (step (run [.join "w5" "a" "ab12" 0]) (.disconnect 0)).state.rooms "w5" = none :=
  room_lifecycle.2.1 [.join "w5" "a" "ab12" 0] "w5" 0 "a" ⟨0, JsonVal.null⟩
    ⟨[("a", ⟨0, JsonVal.null⟩)], JsonVal.null, []⟩ (by decide) (by decide) (by decide)

/-! ### C6: snapshot of an absent room -/

/-- C6 (counterexample): for an identifier with no registry entry the
snapshot's counts mapping is the empty mapping: it has no "pending" key
at all, refuting the claimed counts value of pending: 0. -/
theorem empty_snapshot_cex :
    (room_state initState.rooms "missing").counts = [] ∧
    getOpt (room_state initState.rooms "missing").counts (JsonVal.str "pending")
      = none := by
  decide

/-- C6 (amended): for an identifier with no registry entry, room_state
returns the canonical empty snapshot: empty users, the fixed available
sequence [1,2,3,5,8,13,21,34], an empty counts mapping (not pending: 0),
title none, and empty history. -/
theorem empty_snapshot_amended (rooms : List (String × Room)) (id : String)
    (h : getOpt rooms id = none) :
    room_state rooms id = ⟨[], FIB, [], JsonVal.null, []⟩ := by
  simp [room_state, h]

/-- C6 (witness): the amended theorem on the empty registry. -/
theorem empty_snapshot_amended_w :
    room_state [] "w6" = ⟨[], FIB, [], JsonVal.null, []⟩ :=
  empty_snapshot_amended [] "w6" rfl

/-! ### C7, C10: the reset title sentinel -/

/-- C7: a reset processed while the room's current title is None records
the sentinel string "Sin título" (the code's "no title" value), never
null, as the title of the single appended history entry. -/
theorem reset_null_title_sentinel (st : ServerState) (connId : Nat) (id u : String)
    (fields : List (String × JsonVal)) (r : Room)
    (hs : getOpt st.sessions connId = some (id, u))
    (hr : getOpt st.rooms id = some r)
    (ht : r.current_title = JsonVal.null)
    (hm : objGet fields "type" = JsonVal.str "reset") :
    ∃ r2, getOpt (step st (.clientMsg connId (.object fields))).state.rooms id = some r2 ∧
      r2.history
        = r.history ++ [⟨JsonVal.str "Sin título", (room_state st.rooms id).counts⟩] ∧
      JsonVal.str "Sin título" ≠ JsonVal.null := by
  have hne1 : objGet fields "type" ≠ JsonVal.str "set_title" := by rw [hm]; decide
  have hne2 : objGet fields "type" ≠ JsonVal.str "vote" := by rw [hm]; decide
  refine ⟨⟨r.users.map (fun p => (p.1, { p.2 with vote := JsonVal.null })), JsonVal.null,
    r.history ++ [⟨JsonVal.str "Sin título", (room_state st.rooms id).counts⟩]⟩,
    ?_, rfl, by decide⟩
  simp [step, hs, handleClientMsg, hne1, hne2, hm, hr, ht, JsonVal.truthy,
    getOpt_setKey_self]

/-- Concrete state for the C7 witness: one user who voted 5, no title. -/
def c7wState : ServerState :=
  ⟨[("w7", ⟨[("a", ⟨0, JsonVal.num 5⟩)], JsonVal.null, []⟩)], [(0, ("w7", "a"))]⟩

/-- C7 (witness): the reset sentinel theorem at a concrete state. -/
theorem reset_null_title_sentinel_w :
    ∃ r2, getOpt (step c7wState
        (.clientMsg 0 (.object [("type", JsonVal.str "reset")]))).state.rooms "w7"
      = some r2 ∧
      r2.history = [] ++ [⟨JsonVal.str "Sin título", (room_state c7wState.rooms "w7").counts⟩] ∧
      JsonVal.str "Sin título" ≠ JsonVal.null :=
  reset_null_title_sentinel c7wState 0 "w7" "a" [("type", JsonVal.str "reset")]
    ⟨[("a", ⟨0, JsonVal.num 5⟩)], JsonVal.null, []⟩ (by decide) (by decide) rfl (by decide)

/-- C10: a reset processed while the room's current title is the empty
string also records the sentinel "Sin título", not the empty string, in
the appended history entry: any falsy title is replaced by the sentinel. -/
theorem reset_empty_title_sentinel (st : ServerState) (connId : Nat) (id u : String)
    (fields : List (String × JsonVal)) (r : Room)
    (hs : getOpt st.sessions connId = some (id, u))
    (hr : getOpt st.rooms id = some r)
    (ht : r.current_title = JsonVal.str "")
    (hm : objGet fields "type" = JsonVal.str "reset") :
    ∃ r2, getOpt (step st (.clientMsg connId (.object fields))).state.rooms id = some r2 ∧
      r2.history
        = r.history ++ [⟨JsonVal.str "Sin título", (room_state st.rooms id).counts⟩] ∧
      JsonVal.str "Sin título" ≠ JsonVal.str "" := by
  have hne1 : objGet fields "type" ≠ JsonVal.str "set_title" := by rw [hm]; decide
  have hne2 : objGet fields "type" ≠ JsonVal.str "vote" := by rw [hm]; decide
  refine ⟨⟨r.users.map (fun p => (p.1, { p.2 with vote := JsonVal.null })), JsonVal.null,
    r.history ++ [⟨JsonVal.str "Sin título", (room_state st.rooms id).counts⟩]⟩,
    ?_, rfl, by decide⟩
  simp +decide [step, hs, handleClientMsg, hne1, hne2, hm, hr, ht, JsonVal.truthy,
    getOpt_setKey_self]

/-- Concrete state for the C10 witness: empty-string title. -/
def c10wState : ServerState :=
  ⟨[("wX", ⟨[("a", ⟨0, JsonVal.num 5⟩)], JsonVal.str "", []⟩)], [(0, ("wX", "a"))]⟩

/-- C10 (witness): the empty-string-title reset at a concrete state. -/
theorem reset_empty_title_sentinel_w :
    ∃ r2, getOpt (step c10wState
        (.clientMsg 0 (.object [("type", JsonVal.str "reset")]))).state.rooms "wX"
      = some r2 ∧
      r2.history = [] ++ [⟨JsonVal.str "Sin título", (room_state c10wState.rooms "wX").counts⟩] ∧
      JsonVal.str "Sin título" ≠ JsonVal.str "" :=
  reset_empty_title_sentinel c10wState 0 "wX" "a" [("type", JsonVal.str "reset")]
    ⟨[("a", ⟨0, JsonVal.num 5⟩)], JsonVal.str "", []⟩ (by decide) (by decide) rfl (by decide)

/-! ### C8: request_state is read-only and unicast -/

/-- C8: processing a request_state message sends exactly one state reply,
unicast to the requesting connection, performs no broadcast, and leaves
the entire server state (users, votes, title, history) unchanged. -/
theorem request_state_unicast (st : ServerState) (connId : Nat) (id u : String)
    (fields : List (String × JsonVal))
    (hs : getOpt st.sessions connId = some (id, u))
    (hm : objGet fields "type" = JsonVal.str "request_state") :
    step st (.clientMsg connId (.object fields))
      = ⟨st, [.unicast connId (.stateReply (room_state st.rooms id))], false⟩ := by
  have hne1 : objGet fields "type" ≠ JsonVal.str "set_title" := by rw [hm]; decide
  have hne2 : objGet fields "type" ≠ JsonVal.str "vote" := by rw [hm]; decide
  have hne3 : objGet fields "type" ≠ JsonVal.str "reset" := by rw [hm]; decide
  simp [step, hs, handleClientMsg, hne1, hne2, hne3, hm]

/-- Concrete state for the C8 witness. -/
def c8wState : ServerState :=
  ⟨[("w8", ⟨[("a", ⟨0, JsonVal.num 3⟩)], JsonVal.null, []⟩)], [(0, ("w8", "a"))]⟩

/-- C8 (witness): request_state at a concrete one-user state. -/
theorem request_state_unicast_w :
    step c8wState (.clientMsg 0 (.object [("type", JsonVal.str "request_state")]))
      = ⟨c8wState, [.unicast 0 (.stateReply (room_state c8wState.rooms "w8"))], false⟩ :=
  request_state_unicast c8wState 0 "w8" "a" [("type", JsonVal.str "request_state")]
    (by decide) rfl

/-! ### C9: the reserved pending key -/

/-- C9: even when some user's current vote is the string "pending", the
snapshot's counts mapping reports under the key "pending" exactly the
number of users with no vote — the reserved-key write overwrites the
tally of that vote value, which therefore does not appear in the
snapshot. -/
theorem pending_key_overwrite (rooms : List (String × Room)) (id : String) (r : Room)
    (h : getOpt rooms id = some r)
    (_hv : ∃ p ∈ r.users, p.2.vote = JsonVal.str "pending") :
    getOpt (room_state rooms id).counts (JsonVal.str "pending")
      = some (r.users.countP (fun p => p.2.vote == JsonVal.null)) := by
  simp only [room_state, h, voteTally]
  rw [getOpt_setKey_self, tallyFold_pending r.users ([], 0)]
  simp

/-- Concrete room for the C9 witness: its only user voted the string
"pending", and the reported pending count is 0, not the tally 1. -/
def c9wRoom : Room := ⟨[("a", ⟨0, JsonVal.str "pending"⟩)], JsonVal.null, []⟩

/-- C9 (witness): the pending-key theorem at a concrete room. -/
theorem pending_key_overwrite_w :
    getOpt (room_state [("w9", c9wRoom)] "w9").counts (JsonVal.str "pending") = some 0 :=
  pending_key_overwrite [("w9", c9wRoom)] "w9" c9wRoom (by decide) (by decide)

end Pesanding
